import Mathlib

/-!
Verification development for the Blink2Speech core: a shallow embedding of the
calibration engine (`calibration.py`), the blink signal processor
(`blink_detector.py`), the Morse timing decoder (`morse_decoder.py`), the
threshold persistence helpers (`utils.py`) and the classification step of the
orchestrator loop (`main.py`), together with theorems about them.  Python
floats are modelled as rationals; mutating methods are modelled as functions
from the old state to the new state (paired with their return value where the
source returns one).
-/

/-- Container for blink classification thresholds and gap timings
(`utils.Thresholds`), with the source's default field values captured by
`defaultThresholds`. -/
structure Thresholds where
  short_blink_max : ℚ
  long_blink_min : ℚ
  symbol_gap : ℚ
  letter_gap : ℚ
  word_gap : ℚ
  deriving DecidableEq, Repr

/-- Default `Thresholds()` construction: the documented field defaults of
`utils.Thresholds`. -/
def defaultThresholds : Thresholds :=
  { short_blink_max := 0.30
    long_blink_min := 0.50
    symbol_gap := 0.5
    letter_gap := 1.5
    word_gap := 3.0 }

/-- Arithmetic mean of a list of rationals (`statistics.mean`; the source only
calls it on nonempty lists, and on `[]` this model returns `0`). -/
def listMean (xs : List ℚ) : ℚ := xs.sum / (xs.length : ℚ)

/-- Square of the sample standard deviation `statistics.stdev` (denominator
`n - 1`).  The variance is kept instead of the standard deviation so that the
whole development stays inside `ℚ`. -/
def sampleVar (xs : List ℚ) : ℚ :=
  ((xs.map (fun d => (d - listMean xs) * (d - listMean xs))).sum) / ((xs.length : ℚ) - 1)

/-- Smallest element of a list (`min` builtin; the source never applies it to an
empty list, where this model returns `0`). -/
def listMin : List ℚ → ℚ
  | [] => 0
  | x :: xs => xs.foldl min x

/-- Largest element of a list (`max` builtin; the source never applies it to an
empty list, where this model returns `0`). -/
def listMax : List ℚ → ℚ
  | [] => 0
  | x :: xs => xs.foldl max x

/-- Outlier-removal step of `CalibrationProfile.compute_thresholds`
(calibration.py lines 34-38): when at least 5 samples are present, keep the
durations within two standard deviations of the mean.  The source compares
`abs (d - avg) <= 2 * std`; both sides are nonnegative, so squaring gives the
equivalent rational inequality `(d - avg) * (d - avg) <= 4 * var` used here,
which avoids the irrational square root. -/
def filterOutliers (durations : List ℚ) : List ℚ :=
  if 5 ≤ durations.length then
    durations.filter (fun d =>
      (d - listMean durations) * (d - listMean durations) ≤ 4 * sampleVar durations)
  else durations

/-- Calibration profile (`calibration.CalibrationProfile`): current thresholds
plus the accumulated sample durations (each `CalibrationSample` holds just its
`duration`, so the sample list is modelled as a list of durations). -/
structure CalibrationProfile where
  thresholds : Thresholds
  samples : List ℚ
  deriving DecidableEq, Repr

/-- Method `CalibrationProfile.add_sample`. -/
def add_sample (p : CalibrationProfile) (duration : ℚ) : CalibrationProfile :=
  { p with samples := p.samples ++ [duration] }

/-- Method `CalibrationProfile.is_ready`; the source gives the parameter the
default value `min_samples = 8`, and every call site uses that default, so the
model passes 8 explicitly. -/
def is_ready (p : CalibrationProfile) (min_samples : Nat) : Bool :=
  min_samples ≤ p.samples.length

/-- Method `CalibrationProfile.compute_thresholds` (calibration.py lines
28-69): returns the updated profile (the source mutates `self.thresholds` in
the non-degenerate case) together with the returned thresholds. -/
def compute_thresholds (p : CalibrationProfile) : CalibrationProfile × Thresholds :=
  if p.samples = [] then (p, p.thresholds)
  else
    let durations := filterOutliers p.samples
    if durations = [] then (p, p.thresholds)
    else
      let avg := listMean durations
      let min_dur := listMin durations
      let max_dur := listMax durations
      let short_threshold := max 0.08 (min_dur * 0.8)
      let long_threshold0 := max (avg * 1.2) (max (max_dur * 0.8) (short_threshold + 0.2))
      let long_threshold :=
        if long_threshold0 - short_threshold < 0.2 then short_threshold + 0.2
        else long_threshold0
      let symbol_gap := max 0.4 (avg * 1.5)
      let letter_gap := symbol_gap * 2.5
      let word_gap := letter_gap * 2
      let th : Thresholds :=
        { short_blink_max := short_threshold
          long_blink_min := long_threshold
          symbol_gap := symbol_gap
          letter_gap := letter_gap
          word_gap := word_gap }
      ({ p with thresholds := th }, th)

/-- Association-list lookup modelling a Python dict access: first binding of
the key wins (the source dicts have pairwise distinct keys). -/
def lookupTable {α : Type} : List (String × α) → String → Option α
  | [], _ => none
  | (k, v) :: rest, key => if key = k then some v else lookupTable rest key

/-- The dot symbol, the string with which short blinks are registered. -/
def dotSym : String := "."

/-- The dash symbol, the string with which long blinks are registered. -/
def dashSym : String := "-"

/-- A single space, the separator appended at word boundaries. -/
def spaceSym : String := " "

/-- Placeholder character used for unknown symbol sequences. -/
def unknownSym : String := "?"

/-- Entries of `utils.MORSE_CODE_DICT`. -/
def MORSE_TABLE : List (String × String) :=
  [(".-", "A"), ("-...", "B"), ("-.-.", "C"), ("-..", "D"), (".", "E"),
   ("..-.", "F"), ("--.", "G"), ("....", "H"), ("..", "I"), (".---", "J"),
   ("-.-", "K"), (".-..", "L"), ("--", "M"), ("-.", "N"), ("---", "O"),
   (".--.", "P"), ("--.-", "Q"), (".-.", "R"), ("...", "S"), ("-", "T"),
   ("..-", "U"), ("...-", "V"), (".--", "W"), ("-..-", "X"), ("-.--", "Y"),
   ("--..", "Z"),
   ("-----", "0"), (".----", "1"), ("..---", "2"), ("...--", "3"),
   ("....-", "4"), (".....", "5"), ("-....", "6"), ("--...", "7"),
   ("---..", "8"), ("----.", "9"),
   (".-.-.-", "."), ("--..--", ","), ("..--..", "?"), (".----.", "'"),
   ("-.-.--", "!"), ("-..-.", "/"), ("-.--.", "("), ("-.--.-", ")"),
   (".-..-.", "\""), ("---...", ":"), ("-.-.-.", ";"), ("-...-", "="),
   (".-.-.", "+"), ("-....-", "-"), ("..--.-", "_"), (".--.-.", "@")]

/-- Dict access on `utils.MORSE_CODE_DICT`. -/
def MORSE_CODE_DICT (key : String) : Option String := lookupTable MORSE_TABLE key

/-- Entries of `utils.QUICK_COMMANDS`, the emergency quick commands. -/
def QUICK_TABLE : List (String × String) :=
  [("...---...", "HELP! EMERGENCY!"),
   ("..--.", "I need water"),
   ("--..--", "Call the nurse"),
   (".-.-", "I am in pain"),
   ("..--", "Thank you"),
   ("---...---", "I need medication")]

/-- Dict access on `utils.QUICK_COMMANDS`. -/
def QUICK_COMMANDS (key : String) : Option String := lookupTable QUICK_TABLE key

/-- Python `text.endswith(" ")` specialised to the one-character suffix the
source uses: true exactly when the final character of the string is a space. -/
def endsWithSpace (s : String) : Bool := s.data.getLast? = some ' '

/-- Decoder modes (`morse_decoder.DecoderMode`). -/
inductive DecoderMode where
  | idle
  | building_symbol
  | confirming_letter
  | confirming_word
  deriving DecidableEq, Repr

/-- Decoder state (`morse_decoder.DecoderState`). -/
structure DecoderState where
  current_letter : String
  output_text : String
  last_symbol_time : Option ℚ
  last_letter_time : Option ℚ
  mode : DecoderMode
  confirmation_start : Option ℚ
  deriving DecidableEq, Repr

/-- The default `DecoderState()` construction, also produced by
`MorseDecoder.reset`. -/
def initialDecoderState : DecoderState :=
  { current_letter := ""
    output_text := ""
    last_symbol_time := none
    last_letter_time := none
    mode := DecoderMode.idle
    confirmation_start := none }

/-- Decoder configuration (`morse_decoder.MorseDecoderConfig`). -/
structure MorseDecoderConfig where
  thresholds : Thresholds
  symbol_confirmation_time : ℚ
  letter_confirmation_time : ℚ
  deriving DecidableEq, Repr

/-- The source's default decoder configuration values. -/
def defaultDecoderConfig : MorseDecoderConfig :=
  { thresholds := defaultThresholds
    symbol_confirmation_time := 1.5
    letter_confirmation_time := 3.0 }

/-- Method `MorseDecoder.register_symbol` (morse_decoder.py lines 47-56); the
returned snapshot dictionary only reports fields of the new state, so the model
returns the new state. -/
def register_symbol (s : DecoderState) (symbol : String) (timestamp : ℚ) : DecoderState :=
  { s with current_letter := s.current_letter ++ symbol
           last_symbol_time := some timestamp
           mode := DecoderMode.building_symbol
           confirmation_start := none }

/-- Method `MorseDecoder._finalize_letter` (morse_decoder.py lines 102-114):
quick commands are consulted before the single-letter lexicon. -/
def finalize_letter (s : DecoderState) : DecoderState :=
  if s.current_letter = "" then s
  else
    match QUICK_COMMANDS s.current_letter with
    | some phrase =>
        { s with output_text := s.output_text ++ phrase ++ spaceSym
                 current_letter := ""
                 last_letter_time := none }
    | none =>
        let letter := (MORSE_CODE_DICT s.current_letter).getD unknownSym
        { s with output_text :=
                   if letter ≠ "" then s.output_text ++ letter else s.output_text
                 current_letter := ""
                 last_letter_time := none }

/-- Method `MorseDecoder.handle_gap` (morse_decoder.py lines 58-100); the
returned snapshot dictionary only reports fields of the new state, so the model
returns the new state. -/
def handle_gap (cfg : MorseDecoderConfig) (s : DecoderState) (timestamp : ℚ) : DecoderState :=
  match s.last_symbol_time with
  | none => s
  | some last_time =>
    match s.mode with
    | DecoderMode.building_symbol =>
        if cfg.symbol_confirmation_time ≤ timestamp - last_time then
          { s with mode := DecoderMode.confirming_letter
                   confirmation_start := some timestamp }
        else s
    | DecoderMode.confirming_letter =>
        if (1 : ℚ) ≤ timestamp - (s.confirmation_start.getD timestamp) then
          { finalize_letter s with mode := DecoderMode.confirming_word
                                   confirmation_start := some timestamp }
        else s
    | DecoderMode.confirming_word =>
        if (2 : ℚ) ≤ timestamp - (s.confirmation_start.getD timestamp) then
          { s with output_text :=
                     if s.output_text ≠ "" ∧ endsWithSpace s.output_text = false then
                       s.output_text ++ spaceSym
                     else s.output_text
                   mode := DecoderMode.idle
                   last_symbol_time := none }
        else s
    | DecoderMode.idle => s

/-- Method `MorseDecoder.get_translation`. -/
def get_translation (s : DecoderState) : String := s.output_text.trim

/-- Decoder states reachable from the initial state by any sequence of
`register_symbol` and `handle_gap` calls; `register_symbol` receives symbols
from the dot/dash alphabet that the decoder interface is specified for. -/
inductive Reach (cfg : MorseDecoderConfig) : DecoderState → Prop where
  | init : Reach cfg initialDecoderState
  | sym (s : DecoderState) (symbol : String) (t : ℚ)
      (hsym : symbol = dotSym ∨ symbol = dashSym)
      (hs : Reach cfg s) : Reach cfg (register_symbol s symbol t)
  | gap (s : DecoderState) (t : ℚ) (hs : Reach cfg s) :
      Reach cfg (handle_gap cfg s t)

/-- Blink detector configuration (`blink_detector.BlinkDetectorConfig`). -/
structure BlinkDetectorConfig where
  eye_ar_threshold : ℚ
  eye_ar_smooth_factor : ℚ
  min_blink_duration : ℚ
  max_blink_duration : ℚ
  debounce_time : ℚ
  deriving DecidableEq, Repr

/-- Default `BlinkDetectorConfig()` field values. -/
def defaultBlinkConfig : BlinkDetectorConfig :=
  { eye_ar_threshold := 0.18
    eye_ar_smooth_factor := 0.7
    min_blink_duration := 0.03
    max_blink_duration := 3.0
    debounce_time := 0.08 }

/-- Mutable detector state of `blink_detector.BlinkDetector` (its `prev_ear`,
`eye_closed`, `blink_start` and `last_blink_end` attributes). -/
structure BlinkState where
  prev_ear : Option ℚ
  eye_closed : Bool
  blink_start : Option ℚ
  last_blink_end : Option ℚ
  deriving DecidableEq, Repr

/-- Detector state right after `BlinkDetector.__init__`. -/
def initialBlinkState : BlinkState :=
  { prev_ear := none, eye_closed := false, blink_start := none, last_blink_end := none }

/-- Blink event (`blink_detector.BlinkEvent`, without the purely informational
`message` field). -/
structure BlinkEvent where
  is_blink : Bool
  duration : ℚ
  start_time : ℚ
  end_time : ℚ
  deriving DecidableEq, Repr

/-- Open/close transition evaluation of `BlinkDetector.process`
(blink_detector.py lines 98-120), run on the smoothed eye aspect ratio once the
debounce check has passed. -/
def evaluate_transitions (cfg : BlinkDetectorConfig) (st : BlinkState)
    (smoothed timestamp : ℚ) : BlinkState × Option BlinkEvent :=
  if st.eye_closed = false ∧ smoothed < cfg.eye_ar_threshold then
    ({ st with eye_closed := true, blink_start := some timestamp }, none)
  else if st.eye_closed = true ∧ cfg.eye_ar_threshold ≤ smoothed then
    match st.blink_start with
    | some bs =>
        let duration := timestamp - bs
        if cfg.min_blink_duration ≤ duration ∧ duration ≤ cfg.max_blink_duration then
          ({ st with eye_closed := false
                     blink_start := none
                     last_blink_end := some timestamp },
           some { is_blink := true, duration := duration, start_time := bs,
                  end_time := timestamp })
        else ({ st with eye_closed := false, blink_start := none }, none)
    | none => ({ st with eye_closed := false, blink_start := none }, none)
  else (st, none)

/-- Method `BlinkDetector.process` (blink_detector.py lines 66-124) at the
per-sample level: the upstream face-mesh produces either no face (`none`) or a
raw eye-aspect-ratio sample (`some raw_ear`).  Returns the new state, the
reported ear metric, and the optional emitted blink event. -/
def process (cfg : BlinkDetectorConfig) (st : BlinkState) (raw : Option ℚ)
    (timestamp : ℚ) : BlinkState × ℚ × Option BlinkEvent :=
  match raw with
  | none => (st, st.prev_ear.getD 0, none)
  | some raw_ear =>
    let smoothed :=
      match st.prev_ear with
      | none => raw_ear
      | some prev =>
          cfg.eye_ar_smooth_factor * raw_ear + (1 - cfg.eye_ar_smooth_factor) * prev
    let st1 : BlinkState := { st with prev_ear := some smoothed }
    match st1.last_blink_end with
    | some lbe =>
        if timestamp - lbe < cfg.debounce_time then (st1, smoothed, none)
        else
          let r := evaluate_transitions cfg st1 smoothed timestamp
          (r.1, smoothed, r.2)
    | none =>
        let r := evaluate_transitions cfg st1 smoothed timestamp
        (r.1, smoothed, r.2)

/-- Folds `process` over a list of (raw ear, timestamp) samples, collecting the
emitted blink events in order. -/
def run_samples (cfg : BlinkDetectorConfig) (st : BlinkState) :
    List (Option ℚ × ℚ) → BlinkState × List BlinkEvent
  | [] => (st, [])
  | (raw, t) :: rest =>
    let step := process cfg st raw t
    let tail := run_samples cfg step.1 rest
    (tail.1, step.2.2.toList ++ tail.2)

/-- Dot/dash classification of a blink duration against the current thresholds,
from the orchestrator loop (main.py lines 86-96): strictly below
`short_blink_max` is a dot, at least `long_blink_min` is a dash, and the
remaining dead zone is ignored. -/
def classify_blink (th : Thresholds) (duration : ℚ) : Option String :=
  if duration < th.short_blink_max then some dotSym
  else if th.long_blink_min ≤ duration then some dashSym
  else none

/-- The orchestrator's symbol registration step (main.py lines 98-99): the
decoder receives the classified symbol, and nothing at all in the dead zone. -/
def feed_blink (th : Thresholds) (s : DecoderState) (duration timestamp : ℚ) : DecoderState :=
  match classify_blink th duration with
  | some symbol => register_symbol s symbol timestamp
  | none => s

/-- Calibration manager (`calibration.CalibrationManager`): the profile plus
the persisted-thresholds slot, which models the JSON file written by
`save_thresholds` (absent before the first save). -/
structure CalibrationManager where
  profile : CalibrationProfile
  stored : Option Thresholds
  deriving DecidableEq, Repr

/-- Sample-admission step of `CalibrationManager.record_blink` (calibration.py
lines 80-82): durations inside the admissible 0.04-2.5 second range are
appended, everything else is dropped. -/
def recorded_profile (m : CalibrationManager) (duration : ℚ) : CalibrationProfile :=
  if (0.04 : ℚ) ≤ duration ∧ duration ≤ 2.5 then add_sample m.profile duration
  else m.profile

/-- Method `CalibrationManager.record_blink` (calibration.py lines 79-88);
`save_thresholds` is modelled by filling the `stored` slot. -/
def record_blink (m : CalibrationManager) (duration : ℚ) : CalibrationManager × Thresholds :=
  let profile1 := recorded_profile m duration
  if is_ready profile1 8 then
    let result := compute_thresholds profile1
    ({ profile := result.1, stored := some result.2 }, result.2)
  else
    ({ m with profile := profile1 }, profile1.thresholds)

/-- What `utils.load_thresholds` finds on disk: no file at all, a file whose
contents `json.load` rejects, or a parsed JSON object modelled as an
association list of float fields. -/
inductive StoredFile where
  | absent
  | unparseable
  | parsed (payload : List (String × ℚ))

/-- Classmethod `Thresholds.from_dict` (utils.py lines 105-113): each field
falls back to its documented default when its key is missing. -/
def thresholds_from_dict (payload : List (String × ℚ)) : Thresholds :=
  { short_blink_max := (lookupTable payload ("short_blink_max")).getD 0.30
    long_blink_min := (lookupTable payload ("long_blink_min")).getD 0.50
    symbol_gap := (lookupTable payload ("symbol_gap")).getD 0.5
    letter_gap := (lookupTable payload ("letter_gap")).getD 1.5
    word_gap := (lookupTable payload ("word_gap")).getD 3.0 }

/-- The `json.load` exception that `utils.load_thresholds` does not catch. -/
def jsonLoadError : String := "json.load raised and no handler caught it"

/-- Function `utils.load_thresholds` (utils.py lines 116-121): a missing file
returns the default `Thresholds()`; an existing file is read with `json.load`
inside no try block, so a parse failure escapes to the caller, modelled with
`Except.error`; a parsed payload goes through `Thresholds.from_dict`. -/
def load_thresholds : StoredFile → Except String Thresholds
  | StoredFile.absent => Except.ok defaultThresholds
  | StoredFile.unparseable => Except.error jsonLoadError
  | StoredFile.parsed payload => Except.ok (thresholds_from_dict payload)

/-- Closed-form description of the threshold recomputation formulas that
calibration.py lines 43-68 apply to the mean, minimum and maximum of the
outlier-filtered durations. -/
def codeThresholdFormulas (avg min_dur max_dur : ℚ) : Thresholds :=
  let s := max 0.08 (min_dur * 0.8)
  let l0 := max (avg * 1.2) (max (max_dur * 0.8) (s + 0.2))
  let l := if l0 - s < 0.2 then s + 0.2 else l0
  let sg := max 0.4 (avg * 1.5)
  { short_blink_max := s
    long_blink_min := l
    symbol_gap := sg
    letter_gap := sg * 2.5
    word_gap := sg * 2.5 * 2 }

/-- Threshold recomputation formulas exactly as the specification's sentences
state them (spec section 4.3), for comparison with the source's
`compute_thresholds`: the spec derives both blink thresholds from the mean
alone, with floors 0.65, 1.35 and a 0.25 second separation. -/
def specThresholdFormulas (avg : ℚ) : Thresholds :=
  let s := max 0.08 (avg * 0.65)
  let l0 := max (s + 0.25) (avg * 1.35)
  let l := if l0 - s < 0.25 then s + 0.25 else l0
  let sg := max 0.4 (avg * 1.5)
  { short_blink_max := s
    long_blink_min := l
    symbol_gap := sg
    letter_gap := sg * 2.5
    word_gap := sg * 2.5 * 2 }

/-- The eight calibration samples of the spec's worked example. -/
def eightSamples : List ℚ := [0.10, 0.12, 0.11, 0.13, 0.30, 0.12, 0.11, 0.14]

/-- The spec example's samples with the 0.30 outlier removed. -/
def sevenFiltered : List ℚ := [0.10, 0.12, 0.11, 0.13, 0.12, 0.11, 0.14]

/-- State invariant of the Morse timing decoder relating buffer, mode,
timestamps and output; it holds in every reachable state. -/
def DecoderInv (s : DecoderState) : Prop :=
  (s.current_letter ≠ "" ↔
    (s.mode = DecoderMode.building_symbol ∨ s.mode = DecoderMode.confirming_letter)) ∧
  (s.last_symbol_time = none ↔ s.mode = DecoderMode.idle) ∧
  (s.mode = DecoderMode.confirming_word → s.output_text ≠ "")

/-- Helper: a uniform lower bound on the entries bounds a mapped sum from
below by length times the bound. -/
lemma length_mul_le_sum_map (l : List ℚ) (g : ℚ → ℚ) (c : ℚ)
    (h : ∀ x ∈ l, c ≤ g x) : (l.length : ℚ) * c ≤ (l.map g).sum := by
  induction l with
  | nil => simp
  | cons a l ih =>
      have h1 : c ≤ g a := h a (List.mem_cons_self a l)
      have h2 := ih (fun x hx => h x (List.mem_cons_of_mem a hx))
      simp only [List.map_cons, List.sum_cons, List.length_cons]
      have hexp : ((l.length + 1 : ℕ) : ℚ) * c = (l.length : ℚ) * c + c := by
        push_cast
        ring
      rw [hexp]
      linarith

/-- Helper: the outlier filter of `compute_thresholds` can never empty a
nonempty duration list, because the squared deviations sum to
`(n - 1) * variance` and hence cannot all exceed `4 * variance`. -/
lemma filterOutliers_ne_nil (ds : List ℚ) (h : ds ≠ []) : filterOutliers ds ≠ [] := by
  unfold filterOutliers
  split
  case isTrue h5 =>
    intro hnil
    rw [List.filter_eq_nil_iff] at hnil
    simp only [decide_eq_true_eq, not_le] at hnil
    have hS0 : 0 ≤ (ds.map (fun d => (d - listMean ds) * (d - listMean ds))).sum := by
      apply List.sum_nonneg
      intro x hx
      obtain ⟨d, hd, rfl⟩ := List.mem_map.mp hx
      exact mul_self_nonneg _
    have hn : (5 : ℚ) ≤ (ds.length : ℚ) := by exact_mod_cast h5
    have hvar : sampleVar ds =
        (ds.map (fun d => (d - listMean ds) * (d - listMean ds))).sum /
          ((ds.length : ℚ) - 1) := rfl
    have hden : (0 : ℚ) < (ds.length : ℚ) - 1 := by linarith
    have hv0 : 0 ≤ sampleVar ds := by
      rw [hvar]
      exact div_nonneg hS0 (le_of_lt hden)
    have hlow : (ds.length : ℚ) * (4 * sampleVar ds) ≤
        (ds.map (fun d => (d - listMean ds) * (d - listMean ds))).sum :=
      length_mul_le_sum_map ds _ _ (fun x hx => le_of_lt (hnil x hx))
    have hSeq : (ds.map (fun d => (d - listMean ds) * (d - listMean ds))).sum =
        sampleVar ds * ((ds.length : ℚ) - 1) := by
      rw [hvar]
      field_simp
    have hv : sampleVar ds = 0 := by nlinarith
    obtain ⟨d0, hd0⟩ := List.exists_mem_of_ne_nil ds h
    have hmem : (d0 - listMean ds) * (d0 - listMean ds) ∈
        ds.map (fun d => (d - listMean ds) * (d - listMean ds)) :=
      List.mem_map_of_mem _ hd0
    have hle : (d0 - listMean ds) * (d0 - listMean ds) ≤
        (ds.map (fun d => (d - listMean ds) * (d - listMean ds))).sum := by
      apply List.single_le_sum _ _ hmem
      intro x hx
      obtain ⟨d, hd, rfl⟩ := List.mem_map.mp hx
      exact mul_self_nonneg _
    have hgt := hnil d0 hd0
    rw [hv] at hgt
    rw [hSeq, hv] at hle
    nlinarith
  case isFalse h5 => exact h

/-- Helper: on any profile with samples, `compute_thresholds` returns exactly
the closed-form formulas applied to the statistics of the filtered
durations. -/
lemma compute_thresholds_eq_formula (p : CalibrationProfile) (h : p.samples ≠ []) :
    (compute_thresholds p).2 =
      codeThresholdFormulas (listMean (filterOutliers p.samples))
        (listMin (filterOutliers p.samples)) (listMax (filterOutliers p.samples)) := by
  have hf := filterOutliers_ne_nil p.samples h
  unfold compute_thresholds codeThresholdFormulas
  rw [if_neg h]
  simp only [if_neg hf]

/-- Helper: threshold recomputation never touches the sample list. -/
lemma compute_thresholds_samples (p : CalibrationProfile) :
    (compute_thresholds p).1.samples = p.samples := by
  by_cases h : p.samples = []
  · unfold compute_thresholds
    rw [if_pos h]
  · by_cases hf : filterOutliers p.samples = []
    · unfold compute_thresholds
      rw [if_neg h]
      simp only [hf, if_pos]
    · unfold compute_thresholds
      rw [if_neg h]
      simp only [if_neg hf]

/-- C1: every Thresholds value produced by calibration recomputation from an
actual sample distribution (any nonempty sample list, including degenerate
all-equal samples) satisfies short_blink_max < long_blink_min, and the
enforced minimum separation is 0.2 seconds. -/
theorem calibration_thresholds_separated (p : CalibrationProfile) (h : p.samples ≠ []) :
    (compute_thresholds p).2.short_blink_max < (compute_thresholds p).2.long_blink_min ∧
    (0.2 : ℚ) ≤
      (compute_thresholds p).2.long_blink_min - (compute_thresholds p).2.short_blink_max := by
  rw [compute_thresholds_eq_formula p h]
  simp only [codeThresholdFormulas]
  split_ifs with h1
  · constructor <;> linarith
  · push_neg at h1
    constructor <;> linarith

/-- Witness for C1 at the degenerate all-equal sample distribution. -/
theorem calibration_thresholds_separated_witness :
    (compute_thresholds ⟨defaultThresholds, [1, 1, 1, 1, 1, 1, 1, 1]⟩).2.short_blink_max <
      (compute_thresholds ⟨defaultThresholds, [1, 1, 1, 1, 1, 1, 1, 1]⟩).2.long_blink_min ∧
    (0.2 : ℚ) ≤
      (compute_thresholds ⟨defaultThresholds, [1, 1, 1, 1, 1, 1, 1, 1]⟩).2.long_blink_min -
        (compute_thresholds ⟨defaultThresholds, [1, 1, 1, 1, 1, 1, 1, 1]⟩).2.short_blink_max :=
  calibration_thresholds_separated ⟨defaultThresholds, [1, 1, 1, 1, 1, 1, 1, 1]⟩ (by simp)

/-- C2 (counterexample): on eight identical 0.1 second samples the source
computes long_blink_min = 0.28 while the spec's stated formulas give
max(short + 0.25, avg * 1.35) = 0.33, so recomputation does not follow the
spec's formulas. -/
theorem compute_thresholds_differs_from_spec_formula :
    (compute_thresholds
        ⟨defaultThresholds, [0.1, 0.1, 0.1, 0.1, 0.1, 0.1, 0.1, 0.1]⟩).2 ≠
      specThresholdFormulas
        (listMean (filterOutliers [0.1, 0.1, 0.1, 0.1, 0.1, 0.1, 0.1, 0.1])) := by
  intro hEq
  rw [compute_thresholds_eq_formula _ (by simp)] at hEq
  have hlong := congrArg Thresholds.long_blink_min hEq
  norm_num [codeThresholdFormulas, specThresholdFormulas, filterOutliers, listMean,
    sampleVar, listMin, listMax, List.filter, max_def, min_def] at hlong

/-- C2 (amended): calibration recomputation derives its thresholds from the
mean, minimum and maximum of the outlier-filtered durations by
short_blink_max = max(0.08, min_dur * 0.8),
long_blink_min = max(avg * 1.2, max_dur * 0.8, short_blink_max + 0.2) pushed up
if needed so that the separation is at least 0.2, symbol_gap =
max(0.4, avg * 1.5), letter_gap = symbol_gap * 2.5 and word_gap =
letter_gap * 2. -/
theorem compute_thresholds_formulas (p : CalibrationProfile) (h : p.samples ≠ []) :
    (compute_thresholds p).2 =
      codeThresholdFormulas (listMean (filterOutliers p.samples))
        (listMin (filterOutliers p.samples)) (listMax (filterOutliers p.samples)) :=
  compute_thresholds_eq_formula p h

/-- Witness for the amended C2 at a concrete profile. -/
theorem compute_thresholds_formulas_witness :
    (compute_thresholds
        ⟨defaultThresholds, [0.1, 0.1, 0.1, 0.1, 0.1, 0.1, 0.1, 0.1]⟩).2 =
      codeThresholdFormulas
        (listMean (filterOutliers [0.1, 0.1, 0.1, 0.1, 0.1, 0.1, 0.1, 0.1]))
        (listMin (filterOutliers [0.1, 0.1, 0.1, 0.1, 0.1, 0.1, 0.1, 0.1]))
        (listMax (filterOutliers [0.1, 0.1, 0.1, 0.1, 0.1, 0.1, 0.1, 0.1])) :=
  compute_thresholds_formulas ⟨defaultThresholds, [0.1, 0.1, 0.1, 0.1, 0.1, 0.1, 0.1, 0.1]⟩
    (by simp)

/-- C6: the outlier filter applies only when at least five samples are present,
never empties a nonempty sample list (so the fallback for an emptied list can
never trigger), and on the spec's worked example
[0.10, 0.12, 0.11, 0.13, 0.30, 0.12, 0.11, 0.14] it removes exactly the 0.30
outlier, after which the thresholds are derived from the remaining seven
durations alone. -/
theorem outlier_filter_behaviour :
    (∀ ds : List ℚ, ds.length < 5 → filterOutliers ds = ds) ∧
    (∀ ds : List ℚ, ds ≠ [] → filterOutliers ds ≠ []) ∧
    filterOutliers eightSamples = sevenFiltered ∧
    (compute_thresholds ⟨defaultThresholds, eightSamples⟩).2 =
      codeThresholdFormulas (listMean sevenFiltered) (listMin sevenFiltered)
        (listMax sevenFiltered) := by
  have hfilter : filterOutliers eightSamples = sevenFiltered := by
    norm_num [filterOutliers, listMean, sampleVar, List.filter, eightSamples, sevenFiltered]
  refine ⟨?_, filterOutliers_ne_nil, hfilter, ?_⟩
  · intro ds hlen
    unfold filterOutliers
    rw [if_neg (by omega)]
  · have h8 : (⟨defaultThresholds, eightSamples⟩ : CalibrationProfile).samples ≠ [] := by
      simp [eightSamples]
    rw [compute_thresholds_eq_formula _ h8]
    simp only [hfilter]

/-- Witness for C6 instantiating its quantified clauses at concrete lists. -/
theorem outlier_filter_behaviour_witness :
    filterOutliers [(1 : ℚ)] = [(1 : ℚ)] ∧ filterOutliers [(2 : ℚ)] ≠ [] :=
  ⟨outlier_filter_behaviour.1 [(1 : ℚ)] (by simp),
   outlier_filter_behaviour.2.1 [(2 : ℚ)] (by simp)⟩

/-- C5 (counterexample): an existing thresholds file that json.load cannot
parse does not fall back to the defaults; the exception escapes
load_thresholds, so the failure is propagated to the caller. -/
theorem load_thresholds_parse_failure_propagates :
    load_thresholds StoredFile.unparseable ≠ Except.ok defaultThresholds ∧
    ¬ ∃ t : Thresholds, load_thresholds StoredFile.unparseable = Except.ok t := by
  constructor
  · simp [load_thresholds]
  · rintro ⟨t, ht⟩
    simp [load_thresholds] at ht

/-- C5 (amended): loading persisted thresholds returns the documented defaults
(short_blink_max = 0.30, long_blink_min = 0.50, symbol_gap = 0.5,
letter_gap = 1.5, word_gap = 3.0) when the stored file is absent, but a read
or parse failure on an existing file is propagated to the caller as an
uncaught exception rather than falling back to the defaults. -/
theorem load_thresholds_fallback_behaviour :
    load_thresholds StoredFile.absent = Except.ok defaultThresholds ∧
    defaultThresholds =
      { short_blink_max := 0.30, long_blink_min := 0.50, symbol_gap := 0.5,
        letter_gap := 1.5, word_gap := 3.0 } ∧
    load_thresholds StoredFile.unparseable = Except.error jsonLoadError := by
  refine ⟨rfl, rfl, rfl⟩

/-- C10 (counterexample): a record_blink call made while only seven samples
are accumulated can still persist: with an in-range duration it brings the
count to eight, recomputes and fills the storage slot. -/
theorem record_blink_persists_on_eighth_sample :
    (CalibrationManager.mk
        ⟨defaultThresholds, [0.1, 0.1, 0.1, 0.1, 0.1, 0.1, 0.1]⟩ none).profile.samples.length
        < 8 ∧
    (record_blink
        ⟨⟨defaultThresholds, [0.1, 0.1, 0.1, 0.1, 0.1, 0.1, 0.1]⟩, none⟩ 0.1).1.stored ≠
      none := by
  constructor
  · simp
  · have hrange : ((0.04 : ℚ) ≤ 0.1 ∧ (0.1 : ℚ) ≤ 2.5) := by norm_num
    simp [record_blink, recorded_profile, if_pos hrange, add_sample, is_ready]

/-- C10 (amended): whenever the accumulated sample count - after the call's
own in-range sample, if any, has been admitted - is at least eight, the
record_blink call recomputes and persists the thresholds; this covers both the
eighth-sample in-range call itself and every later call, including one whose
duration lies outside the admissible 0.04-2.5 second range, which leaves the
sample list unchanged but still recomputes and persists.  A call after which
fewer than eight samples are accumulated returns the current thresholds
unchanged and persists nothing. -/
theorem record_blink_behaviour (m : CalibrationManager) (duration : ℚ) :
    (8 ≤ (recorded_profile m duration).samples.length →
      ((record_blink m duration).1.stored = some (record_blink m duration).2 ∧
       (record_blink m duration).2 = (compute_thresholds (recorded_profile m duration)).2 ∧
       (¬ ((0.04 : ℚ) ≤ duration ∧ duration ≤ 2.5) →
         (record_blink m duration).1.profile.samples = m.profile.samples))) ∧
    ((recorded_profile m duration).samples.length < 8 →
      ((record_blink m duration).1.stored = m.stored ∧
       (record_blink m duration).2 = m.profile.thresholds ∧
       (record_blink m duration).1.profile.thresholds = m.profile.thresholds)) := by
  constructor
  · intro h8
    have hready : is_ready (recorded_profile m duration) 8 = true := by
      simp [is_ready, h8]
    refine ⟨?_, ?_, ?_⟩
    · simp [record_blink, hready]
    · simp [record_blink, hready]
    · intro hout
      have hpe : recorded_profile m duration = m.profile := by
        unfold recorded_profile
        rw [if_neg hout]
      simp [record_blink, hready]
      rw [compute_thresholds_samples, hpe]
  · intro hlt
    have hready : is_ready (recorded_profile m duration) 8 = false := by
      simp [is_ready]
      omega
    have hth : (recorded_profile m duration).thresholds = m.profile.thresholds := by
      unfold recorded_profile
      split
      · simp [add_sample]
      · rfl
    refine ⟨?_, ?_, ?_⟩ <;> simp [record_blink, hready, hth]

/-- Witness for the amended C10: the eighth-sample in-range call (seven
samples accumulated before the call) recomputes and persists, an eight-sample
manager persists even on an out-of-range duration with the sample list left
unchanged, and an empty manager persists nothing. -/
theorem record_blink_behaviour_witness :
    ((record_blink
        ⟨⟨defaultThresholds, [0.1, 0.1, 0.1, 0.1, 0.1, 0.1, 0.1]⟩, none⟩ 0.1).1.stored =
      some (record_blink
        ⟨⟨defaultThresholds, [0.1, 0.1, 0.1, 0.1, 0.1, 0.1, 0.1]⟩, none⟩ 0.1).2 ∧
     (record_blink
        ⟨⟨defaultThresholds, [0.1, 0.1, 0.1, 0.1, 0.1, 0.1, 0.1]⟩, none⟩ 0.1).2 =
       (compute_thresholds (recorded_profile
          ⟨⟨defaultThresholds, [0.1, 0.1, 0.1, 0.1, 0.1, 0.1, 0.1]⟩, none⟩ 0.1)).2) ∧
    ((record_blink
        ⟨⟨defaultThresholds, [0.1, 0.1, 0.1, 0.1, 0.1, 0.1, 0.1, 0.1]⟩, none⟩ 5).1.stored =
      some (record_blink
        ⟨⟨defaultThresholds, [0.1, 0.1, 0.1, 0.1, 0.1, 0.1, 0.1, 0.1]⟩, none⟩ 5).2 ∧
     (record_blink
        ⟨⟨defaultThresholds, [0.1, 0.1, 0.1, 0.1, 0.1, 0.1, 0.1, 0.1]⟩, none⟩ 5).1.profile.samples =
       [0.1, 0.1, 0.1, 0.1, 0.1, 0.1, 0.1, 0.1]) ∧
    ((record_blink ⟨⟨defaultThresholds, []⟩, none⟩ 0.1).1.stored = none ∧
     (record_blink ⟨⟨defaultThresholds, []⟩, none⟩ 0.1).2 = defaultThresholds) := by
  have h7 := (record_blink_behaviour
    ⟨⟨defaultThresholds, [0.1, 0.1, 0.1, 0.1, 0.1, 0.1, 0.1]⟩, none⟩ 0.1).1 (by
      norm_num [recorded_profile, add_sample])
  have h8 := (record_blink_behaviour
    ⟨⟨defaultThresholds, [0.1, 0.1, 0.1, 0.1, 0.1, 0.1, 0.1, 0.1]⟩, none⟩ 5).1 (by
      norm_num [recorded_profile, add_sample])
  have h0 := (record_blink_behaviour ⟨⟨defaultThresholds, []⟩, none⟩ 0.1).2 (by
    norm_num [recorded_profile, add_sample])
  exact ⟨⟨h7.1, h7.2.1⟩, ⟨h8.1, h8.2.2 (by norm_num)⟩, ⟨h0.1, h0.2.1⟩⟩

/-- Helper: a sample arriving within the debounce window leaves the transition
state untouched and emits nothing (the smoothed metric may still update). -/
lemma process_debounced (cfg : BlinkDetectorConfig) (st : BlinkState) (lbe : ℚ)
    (raw : Option ℚ) (t : ℚ) (hl : st.last_blink_end = some lbe)
    (ht : t - lbe < cfg.debounce_time) :
    (process cfg st raw t).1.eye_closed = st.eye_closed ∧
    (process cfg st raw t).1.blink_start = st.blink_start ∧
    (process cfg st raw t).1.last_blink_end = st.last_blink_end ∧
    (process cfg st raw t).2.2 = none := by
  cases raw with
  | none => simp [process]
  | some raw_ear => simp [process, hl, if_pos ht]

/-- Helper: after an emitted blink, a run of samples lying entirely inside the
debounce window emits no further events at all. -/
lemma run_samples_no_event (cfg : BlinkDetectorConfig) (lbe : ℚ) :
    ∀ (samples : List (Option ℚ × ℚ)) (st : BlinkState),
      st.last_blink_end = some lbe →
      (∀ p ∈ samples, p.2 - lbe < cfg.debounce_time) →
      (run_samples cfg st samples).2 = [] := by
  intro samples
  induction samples with
  | nil =>
      intro st h1 h2
      simp [run_samples]
  | cons p rest ih =>
      intro st h1 h2
      obtain ⟨raw, t⟩ := p
      have hp := h2 (raw, t) (List.mem_cons_self _ _)
      have hd := process_debounced cfg st lbe raw t h1 hp
      have hlbe : (process cfg st raw t).1.last_blink_end = some lbe := by
        rw [hd.2.2.1]
        exact h1
      have htail := ih (process cfg st raw t).1 hlbe
        (fun q hq => h2 q (List.mem_cons_of_mem _ hq))
      simp [run_samples, hd.2.2.2, htail]

/-- C7: when a prior emitted blink ended less than debounce_time before the
current sample, the processor suppresses all transition evaluation - the
eye_closed, blink_start and last_blink_end state does not change and no event
is emitted - and consequently an entire run of samples within the debounce
window after a validated blink yields no further BlinkEvent. -/
theorem debounce_suppresses_transitions (cfg : BlinkDetectorConfig) (st : BlinkState)
    (lbe : ℚ) (hl : st.last_blink_end = some lbe) :
    (∀ (raw : Option ℚ) (t : ℚ), t - lbe < cfg.debounce_time →
      ((process cfg st raw t).1.eye_closed = st.eye_closed ∧
       (process cfg st raw t).1.blink_start = st.blink_start ∧
       (process cfg st raw t).1.last_blink_end = st.last_blink_end ∧
       (process cfg st raw t).2.2 = none)) ∧
    (∀ samples : List (Option ℚ × ℚ),
      (∀ p ∈ samples, p.2 - lbe < cfg.debounce_time) →
      (run_samples cfg st samples).2 = []) :=
  ⟨fun raw t ht => process_debounced cfg st lbe raw t hl ht,
   fun samples hs => run_samples_no_event cfg lbe samples st hl hs⟩

/-- Witness for C7 right after a blink that ended at time 10. -/
theorem debounce_suppresses_transitions_witness :
    (process defaultBlinkConfig ⟨none, false, none, some 10⟩ (some 0.5) 10.05).2.2 =
      none ∧
    (run_samples defaultBlinkConfig ⟨none, false, none, some 10⟩
      [(some 0.1, 10.01)]).2 = [] := by
  have h := debounce_suppresses_transitions defaultBlinkConfig
    ⟨none, false, none, some 10⟩ 10 rfl
  refine ⟨(h.1 (some 0.5) 10.05 ?_).2.2.2, h.2 [(some 0.1, 10.01)] ?_⟩
  · norm_num [defaultBlinkConfig]
  · intro p hp
    simp only [List.mem_singleton] at hp
    rw [hp]
    norm_num [defaultBlinkConfig]

/-- C8: blink durations in the dead zone short_blink_max <= d < long_blink_min
classify to neither dot nor dash and register nothing with the decoder; a dot
arises exactly for d < short_blink_max, and (for a separated threshold pair) a
dash arises exactly for d >= long_blink_min. -/
theorem classification_dead_zone (th : Thresholds) (d : ℚ) :
    (th.short_blink_max ≤ d → d < th.long_blink_min →
      (classify_blink th d = none ∧
       ∀ (s : DecoderState) (t : ℚ), feed_blink th s d t = s)) ∧
    (classify_blink th d = some dotSym ↔ d < th.short_blink_max) ∧
    (th.short_blink_max ≤ th.long_blink_min →
      (classify_blink th d = some dashSym ↔ th.long_blink_min ≤ d)) := by
  refine ⟨?_, ⟨?_, ?_⟩, ?_⟩
  · intro h1 h2
    have hc : classify_blink th d = none := by
      unfold classify_blink
      rw [if_neg (not_lt.mpr h1), if_neg (not_le.mpr h2)]
    refine ⟨hc, fun s t => ?_⟩
    unfold feed_blink
    rw [hc]
  · intro h
    unfold classify_blink at h
    split_ifs at h with h1 h2
    · exact h1
    · exact absurd (Option.some.inj h) (by decide)
  · intro h1
    unfold classify_blink
    rw [if_pos h1]
  · intro hord
    constructor
    · intro h
      unfold classify_blink at h
      split_ifs at h with h1 h2
      · exact absurd (Option.some.inj h) (by decide)
      · exact h2
    · intro h2
      have h1 : ¬ d < th.short_blink_max := not_lt.mpr (le_trans hord h2)
      unfold classify_blink
      rw [if_neg h1, if_pos h2]

/-- Witness for C8 at the default thresholds and the dead-zone duration 0.4. -/
theorem classification_dead_zone_witness :
    classify_blink defaultThresholds 0.4 = none ∧
    feed_blink defaultThresholds initialDecoderState 0.4 0 = initialDecoderState := by
  have h := (classification_dead_zone defaultThresholds 0.4).1
    (by norm_num [defaultThresholds]) (by norm_num [defaultThresholds])
  exact ⟨h.1, h.2 initialDecoderState 0⟩

/-- Helper: string concatenation acts on the underlying character lists. -/
lemma string_data_append (a b : String) : (a ++ b).data = a.data ++ b.data := by
  cases a
  cases b
  rfl

/-- Helper: appending a nonempty string yields a nonempty string. -/
lemma string_append_ne_empty (a b : String) (hb : b ≠ "") : a ++ b ≠ "" := by
  intro h
  apply hb
  have hd := congrArg String.data h
  rw [string_data_append] at hd
  have hbd : b.data = [] := (List.append_eq_nil.mp hd).2
  cases b
  simp at hbd
  simp [hbd]

/-- Helper: every value a table lookup can return is a value of the table. -/
lemma lookupTable_val {α : Type} :
    ∀ (t : List (String × α)) (k : String) (v : α),
      lookupTable t k = some v → ∃ p ∈ t, p.2 = v := by
  intro t
  induction t with
  | nil =>
      intro k v h
      simp [lookupTable] at h
  | cons q rest ih =>
      intro k v h
      obtain ⟨qk, qv⟩ := q
      unfold lookupTable at h
      split_ifs at h with hk
      · exact ⟨(qk, qv), List.mem_cons_self _ _, (Option.some.inj h)⟩
      · obtain ⟨p, hp, hv⟩ := ih k v h
        exact ⟨p, List.mem_cons_of_mem _ hp, hv⟩

/-- Helper: the letter appended by the lexicon branch of finalize_letter is
never empty - every MORSE_CODE_DICT value is nonempty and the unknown-pattern
placeholder is nonempty. -/
lemma morse_letter_ne_empty (m : String) :
    (MORSE_CODE_DICT m).getD unknownSym ≠ "" := by
  cases hm : MORSE_CODE_DICT m with
  | none =>
      simp [Option.getD]
      decide
  | some v =>
      simp [Option.getD]
      obtain ⟨p, hp, hv⟩ := lookupTable_val MORSE_TABLE m v hm
      have hvals : ∀ q ∈ MORSE_TABLE, q.2 ≠ ("" : String) := by decide
      rw [← hv]
      exact hvals p hp

/-- Helper: the empty buffer matches no quick command. -/
lemma quick_commands_empty : QUICK_COMMANDS ("") = none := by decide

/-- Helper: on a nonempty buffer, finalize_letter empties the buffer, appends
a nonempty piece to the output (so the output becomes nonempty), and leaves
the timing and mode fields other than last_letter_time untouched. -/
lemma finalize_letter_fields (s : DecoderState) (h : s.current_letter ≠ "") :
    (finalize_letter s).current_letter = "" ∧
    (finalize_letter s).output_text ≠ "" ∧
    (finalize_letter s).last_symbol_time = s.last_symbol_time ∧
    (finalize_letter s).mode = s.mode ∧
    (finalize_letter s).confirmation_start = s.confirmation_start := by
  unfold finalize_letter
  rw [if_neg h]
  cases hq : QUICK_COMMANDS s.current_letter with
  | some phrase =>
      simp
      exact string_append_ne_empty _ _ (by decide)
  | none =>
      simp
      rw [if_neg (morse_letter_ne_empty s.current_letter)]
      exact string_append_ne_empty _ _ (morse_letter_ne_empty s.current_letter)

/-- Helper: every reachable decoder state satisfies the decoder invariant. -/
lemma reach_inv (cfg : MorseDecoderConfig) (s : DecoderState) (h : Reach cfg s) :
    DecoderInv s := by
  induction h with
  | init =>
      refine ⟨?_, ?_, ?_⟩ <;> simp [initialDecoderState, DecoderInv]
  | sym s symbol t hsym hs ih =>
      have hsne : symbol ≠ "" := by
        rcases hsym with h1 | h1 <;> rw [h1] <;> decide
      refine ⟨?_, ?_, ?_⟩
      · simp [register_symbol, string_append_ne_empty _ _ hsne]
      · simp [register_symbol]
      · simp [register_symbol]
  | gap s t hs ih =>
      obtain ⟨ih1, ih2, ih3⟩ := ih
      cases hlast : s.last_symbol_time with
      | none =>
          have heq : handle_gap cfg s t = s := by
            simp [handle_gap, hlast]
          rw [heq]
          exact ⟨ih1, ih2, ih3⟩
      | some lst =>
          have hlast_ne : ¬ s.last_symbol_time = none := by simp [hlast]
          cases hmode : s.mode with
          | idle => exact absurd (ih2.mpr hmode) hlast_ne
          | building_symbol =>
              by_cases hgt : cfg.symbol_confirmation_time ≤ t - lst
              · have heq : handle_gap cfg s t =
                    { s with mode := DecoderMode.confirming_letter
                             confirmation_start := some t } := by
                  simp [handle_gap, hlast, hmode, if_pos hgt]
                rw [heq]
                have hcl : s.current_letter ≠ "" := ih1.mpr (Or.inl hmode)
                refine ⟨?_, ?_, ?_⟩ <;> simp [hcl, hlast]
              · have heq : handle_gap cfg s t = s := by
                  simp [handle_gap, hlast, hmode, if_neg hgt]
                rw [heq]
                exact ⟨ih1, ih2, ih3⟩
          | confirming_letter =>
              by_cases hgt : (1 : ℚ) ≤ t - (s.confirmation_start.getD t)
              · have heq : handle_gap cfg s t =
                    { finalize_letter s with mode := DecoderMode.confirming_word
                                             confirmation_start := some t } := by
                  simp [handle_gap, hlast, hmode, if_pos hgt]
                have hcl : s.current_letter ≠ "" := ih1.mpr (Or.inr hmode)
                obtain ⟨f1, f2, f3, f4, f5⟩ := finalize_letter_fields s hcl
                rw [heq]
                refine ⟨?_, ?_, ?_⟩
                · simp [f1]
                · simp [f3, hlast]
                · intro _
                  simpa using f2
              · have heq : handle_gap cfg s t = s := by
                  simp [handle_gap, hlast, hmode, if_neg hgt]
                rw [heq]
                exact ⟨ih1, ih2, ih3⟩
          | confirming_word =>
              by_cases hgt : (2 : ℚ) ≤ t - (s.confirmation_start.getD t)
              · have heq : handle_gap cfg s t =
                    { s with output_text :=
                               if s.output_text ≠ "" ∧ endsWithSpace s.output_text = false
                               then s.output_text ++ spaceSym else s.output_text
                             mode := DecoderMode.idle
                             last_symbol_time := none } := by
                  simp [handle_gap, hlast, hmode, if_pos hgt]
                have hcl : s.current_letter = "" := by
                  by_contra hne
                  rcases ih1.mp hne with h1 | h1 <;> rw [hmode] at h1 <;> exact
                    DecoderMode.noConfusion h1
                rw [heq]
                refine ⟨?_, ?_, ?_⟩ <;> simp [hcl]
              · have heq : handle_gap cfg s t = s := by
                  simp [handle_gap, hlast, hmode, if_neg hgt]
                rw [heq]
                exact ⟨ih1, ih2, ih3⟩

/-- C9: every decoder state reachable from the initial state by register_symbol
and handle_gap calls has a nonempty symbol buffer exactly in the
BUILDING_SYMBOL and CONFIRMING_LETTER modes (so the buffer is empty in IDLE
and CONFIRMING_WORD), has last_symbol_time = None exactly in IDLE, and has
nonempty output text whenever the mode is CONFIRMING_WORD. -/
theorem decoder_reachable_state_invariant (cfg : MorseDecoderConfig) (s : DecoderState)
    (hs : Reach cfg s) :
    (s.current_letter ≠ "" ↔
      (s.mode = DecoderMode.building_symbol ∨ s.mode = DecoderMode.confirming_letter)) ∧
    (s.last_symbol_time = none ↔ s.mode = DecoderMode.idle) ∧
    (s.mode = DecoderMode.confirming_word → s.output_text ≠ "") :=
  reach_inv cfg s hs

/-- Witness for C9 at the initial state. -/
theorem decoder_reachable_state_invariant_witness :
    (initialDecoderState.current_letter ≠ "" ↔
      (initialDecoderState.mode = DecoderMode.building_symbol ∨
       initialDecoderState.mode = DecoderMode.confirming_letter)) ∧
    (initialDecoderState.last_symbol_time = none ↔
      initialDecoderState.mode = DecoderMode.idle) ∧
    (initialDecoderState.mode = DecoderMode.confirming_word →
      initialDecoderState.output_text ≠ "") :=
  decoder_reachable_state_invariant defaultDecoderConfig initialDecoderState Reach.init

/-- C3: a tick in CONFIRMING_WORD mode whose elapsed time since the
confirmation clock start is at least 2 seconds appends exactly one space to
the output (none when the output already ends with one), moves the decoder to
IDLE, clears the last-symbol timestamp, and any further tick leaves the state
completely unchanged. -/
theorem confirming_word_tick_single_space (cfg : MorseDecoderConfig) (s : DecoderState)
    (t c : ℚ) (hs : Reach cfg s) (hm : s.mode = DecoderMode.confirming_word)
    (hc : s.confirmation_start = some c) (ht : (2 : ℚ) ≤ t - c) :
    (handle_gap cfg s t).output_text =
      (if endsWithSpace s.output_text = true then s.output_text
       else s.output_text ++ spaceSym) ∧
    (handle_gap cfg s t).mode = DecoderMode.idle ∧
    (handle_gap cfg s t).last_symbol_time = none ∧
    ∀ u : ℚ, handle_gap cfg (handle_gap cfg s t) u = handle_gap cfg s t := by
  obtain ⟨ih1, ih2, ih3⟩ := reach_inv cfg s hs
  have hout : s.output_text ≠ "" := ih3 hm
  cases hlast : s.last_symbol_time with
  | none =>
      have hidle := ih2.mp hlast
      rw [hm] at hidle
      exact DecoderMode.noConfusion hidle
  | some lst =>
      have hgt : (2 : ℚ) ≤ t - s.confirmation_start.getD t := by
        rw [hc]
        simpa using ht
      have heq : handle_gap cfg s t =
          { s with output_text :=
                     if s.output_text ≠ "" ∧ endsWithSpace s.output_text = false
                     then s.output_text ++ spaceSym else s.output_text
                   mode := DecoderMode.idle
                   last_symbol_time := none } := by
        simp [handle_gap, hlast, hm, if_pos hgt]
      rw [heq]
      refine ⟨?_, rfl, rfl, fun u => rfl⟩
      by_cases hsp : endsWithSpace s.output_text = true
      · have hcond : ¬ (s.output_text ≠ "" ∧ endsWithSpace s.output_text = false) := by
          simp [hsp]
        simp [hcond, hsp]
      · have hspf : endsWithSpace s.output_text = false := by
          cases hE : endsWithSpace s.output_text
          · rfl
          · exact absurd hE hsp
        have hcond : s.output_text ≠ "" ∧ endsWithSpace s.output_text = false :=
          ⟨hout, hspf⟩
        simp [hcond, hsp]

/-- Witness for C3 at a reachable CONFIRMING_WORD state obtained by
registering a dot at time 0, confirming the letter at times 1.5 and 2.5, and
ticking at time 4.5. -/
theorem confirming_word_tick_single_space_witness :
    (handle_gap defaultDecoderConfig
        ⟨"", "E", some 0, none, DecoderMode.confirming_word, some (5/2)⟩ (9/2)).output_text =
      (if endsWithSpace ("E") = true then ("E") else ("E") ++ spaceSym) ∧
    (handle_gap defaultDecoderConfig
        ⟨"", "E", some 0, none, DecoderMode.confirming_word, some (5/2)⟩ (9/2)).mode =
      DecoderMode.idle ∧
    (handle_gap defaultDecoderConfig
        ⟨"", "E", some 0, none, DecoderMode.confirming_word, some (5/2)⟩ (9/2)).last_symbol_time =
      none ∧
    ∀ u : ℚ, handle_gap defaultDecoderConfig
        (handle_gap defaultDecoderConfig
          ⟨"", "E", some 0, none, DecoderMode.confirming_word, some (5/2)⟩ (9/2)) u =
      handle_gap defaultDecoderConfig
        ⟨"", "E", some 0, none, DecoderMode.confirming_word, some (5/2)⟩ (9/2) := by
  have e1 : register_symbol initialDecoderState dotSym 0 =
      ⟨dotSym, "", some 0, none, DecoderMode.building_symbol, none⟩ := rfl
  have e2 : handle_gap defaultDecoderConfig
      ⟨dotSym, "", some 0, none, DecoderMode.building_symbol, none⟩ (3/2) =
      ⟨dotSym, "", some 0, none, DecoderMode.confirming_letter, some (3/2)⟩ := by
    norm_num [handle_gap, defaultDecoderConfig]
  have e3 : handle_gap defaultDecoderConfig
      ⟨dotSym, "", some 0, none, DecoderMode.confirming_letter, some (3/2)⟩ (5/2) =
      ⟨"", "E", some 0, none, DecoderMode.confirming_word, some (5/2)⟩ := by
    have hne : ¬ (("." : String) = "") := by decide
    have hq : QUICK_COMMANDS (".") = none := by decide
    have hmd : MORSE_CODE_DICT (".") = some ("E") := by decide
    have hneE : ¬ (("E" : String) = "") := by decide
    have happ : ("" : String) ++ ("E") = ("E") := rfl
    norm_num [handle_gap, finalize_letter, dotSym, unknownSym, hne, hq, hmd, hneE, happ]
  have hreach : Reach defaultDecoderConfig
      ⟨"", "E", some 0, none, DecoderMode.confirming_word, some (5/2)⟩ := by
    have r1 : Reach defaultDecoderConfig (register_symbol initialDecoderState dotSym 0) :=
      Reach.sym initialDecoderState dotSym 0 (Or.inl rfl) Reach.init
    rw [e1] at r1
    have r2 := Reach.gap _ (3/2) r1
    rw [e2] at r2
    have r3 := Reach.gap _ (5/2) r2
    rw [e3] at r3
    exact r3
  exact confirming_word_tick_single_space defaultDecoderConfig
    ⟨"", "E", some 0, none, DecoderMode.confirming_word, some (5/2)⟩ (9/2) (5/2)
    hreach rfl rfl (by norm_num)

/-- C4: whenever letter finalization runs with the buffered symbol sequence
exactly matching a quick command, the whole phrase plus a trailing space is
appended to the output - independent of anything the single-letter lexicon
would say - so quick commands take precedence over lexicon decoding. -/
theorem finalize_letter_quick_command_precedence (s : DecoderState) (phrase : String)
    (h : QUICK_COMMANDS s.current_letter = some phrase) :
    finalize_letter s =
      { s with output_text := s.output_text ++ phrase ++ spaceSym
               current_letter := ""
               last_letter_time := none } := by
  have hne : s.current_letter ≠ "" := by
    intro he
    rw [he, quick_commands_empty] at h
    exact Option.noConfusion h
  unfold finalize_letter
  rw [if_neg hne, h]

/-- Witness for C4 at the SOS buffer. -/
theorem finalize_letter_quick_command_precedence_witness :
    QUICK_COMMANDS ("...---...") = some ("HELP! EMERGENCY!") ∧
    finalize_letter
        ⟨"...---...", "", none, none, DecoderMode.confirming_letter, none⟩ =
      ⟨"", ("" : String) ++ ("HELP! EMERGENCY!") ++ spaceSym, none, none,
        DecoderMode.confirming_letter, none⟩ := by
  constructor
  · decide
  · exact finalize_letter_quick_command_precedence
      ⟨"...---...", "", none, none, DecoderMode.confirming_letter, none⟩
      ("HELP! EMERGENCY!") (by decide)
